import Mathlib

/-!
Verification development for the self-update / self-restart supervisor
(`imeepos/context-ai`).  The TypeScript source is shallowly embedded:

* JavaScript regular-expression `test` calls become an executable
  backtracking matcher over `List Char` (`reTest`); the only constructs the
  eight marker patterns use are literal characters, the character classes
  `\s`, `.` and `["']`, and `*` over a single-character class.
* The filesystem becomes a map `String → Option String`; the fallible
  `writeFile`/`rename` calls consult an oracle (`FsOracle`) that injects the
  outcome of each operation, and every mutation is recorded in a history so
  that temporal statements about the target path can be made.
* Promise-returning functions become total functions returning `Except`
  together with counters for attempts and sleeps.
-/

/-- A JavaScript `Error` value: `name`, `message` and an optional `stack`.
Errors constructed with `new Error(msg)` in the source are modelled with an
absent stack. -/
structure JsError where
  name : String
  message : String
  stack : Option String
  deriving DecidableEq, Repr

/-- `new Error(msg)` in the source. -/
def mkError (msg : String) : JsError := ⟨"Error", msg, none⟩

/-- `errorToString` from the source: formats `name: message\nstack`, with the
placeholder `"No stack trace"` when `error.stack` is absent or empty (the
source uses the falsy check `error.stack || "No stack trace"`). -/
def errorToString (e : JsError) : String :=
  e.name ++ ": " ++ e.message ++ "\n" ++
    (match e.stack with
     | some s => if s = "" then "No stack trace" else s
     | none => "No stack trace")

/-- ECMAScript `\s`: WhiteSpace plus LineTerminator code points.  This is
also exactly the set `String.prototype.trim` strips. -/
def jsWhitespace (c : Char) : Bool :=
  let n := c.toNat
  n == 0x9 || n == 0xA || n == 0xB || n == 0xC || n == 0xD || n == 0x20 ||
  n == 0xA0 || n == 0x1680 || (Nat.ble 0x2000 n && Nat.ble n 0x200A) ||
  n == 0x2028 || n == 0x2029 || n == 0x202F || n == 0x205F || n == 0x3000 ||
  n == 0xFEFF

/-- ECMAScript `.` (without the `s` flag): any character except a
LineTerminator. -/
def jsDot (c : Char) : Bool :=
  let n := c.toNat
  !(n == 0xA || n == 0xD || n == 0x2028 || n == 0x2029)

/-- The character class `["']`. -/
def jsQuote (c : Char) : Bool :=
  c == Char.ofNat 34 || c == Char.ofNat 39

/-- One item of a marker pattern: a literal character, a one-character
class, or `*` applied to a one-character class.  These are the only
constructs appearing in the eight `requiredPatterns` of the source. -/
inductive RItem where
  | lit (c : Char)
  | cls (p : Char → Bool)
  | star (p : Char → Bool)

/-- A marker pattern is a sequence of items. -/
abbrev Regex := List RItem

/-- Backtracking matcher: does the pattern match a prefix of `s`?  The fuel
argument only bounds the recursion so the definition is structural (and thus
kernel-reducible); every recursive call strictly decreases
`r.length + s.length`, so any fuel above that bound never runs out. -/
def matchFuel : Nat → List RItem → List Char → Bool
  | _, [], _ => true
  | 0, _ :: _, _ => false
  | f + 1, RItem.lit c :: ps, s =>
    match s with
    | [] => false
    | x :: xs => c == x && matchFuel f ps xs
  | f + 1, RItem.cls p :: ps, s =>
    match s with
    | [] => false
    | x :: xs => p x && matchFuel f ps xs
  | f + 1, RItem.star p :: ps, s =>
    matchFuel f ps s ||
      (match s with
       | [] => false
       | x :: xs => p x && matchFuel f (RItem.star p :: ps) xs)

/-- Try the pattern at every start position, with a fixed fuel; the
recursion is in tail position so evaluation runs in constant stack. -/
def reTestFrom (f : Nat) (r : List RItem) : List Char → Bool
  | [] => matchFuel f r []
  | x :: xs =>
    match matchFuel f r (x :: xs) with
    | true => true
    | false => reTestFrom f r xs

/-- Tail-recursive list length, used to compute the fuel bound. -/
def clen : List Char → Nat → Nat
  | [], acc => acc
  | _ :: xs, acc => clen xs (acc + 1)

/-- JavaScript `pattern.test(code)`: the pattern matches somewhere in the
text.  The fuel `r.length + s.length + 1` strictly exceeds the measure
`r.length + s.length` that every recursive call of `matchFuel` decreases,
so the fuel never runs out. -/
def reTest (r : Regex) (s : String) : Bool :=
  reTestFrom (clen s.data (List.length r) + 1) r s.data

/-- `clen`, unrolled to consume eight characters per recursion layer;
`clen8_eq_clen` proves it equal to `clen`. -/
def clen8 : List Char → Nat → Nat
  | _ :: _ :: _ :: _ :: _ :: _ :: _ :: _ :: xs, acc => clen8 xs (acc + 8)
  | _ :: xs, acc => clen8 xs (acc + 1)
  | [], acc => acc

/-- A sequence of literal items, one per character. -/
def lits (s : String) : Regex := s.data.map RItem.lit

/-- Marker 1: `/import\s*{.*}\s*from\s*["']fs["']/`. -/
def reFsImport : Regex :=
  lits "import" ++ [RItem.star jsWhitespace, RItem.lit (Char.ofNat 123),
    RItem.star jsDot, RItem.lit (Char.ofNat 125), RItem.star jsWhitespace] ++
  lits "from" ++ [RItem.star jsWhitespace, RItem.cls jsQuote] ++
  lits "fs" ++ [RItem.cls jsQuote]

/-- Marker 2: `/import\s*{.*}\s*from\s*["']child_process["']/`. -/
def reChildProcessImport : Regex :=
  lits "import" ++ [RItem.star jsWhitespace, RItem.lit (Char.ofNat 123),
    RItem.star jsDot, RItem.lit (Char.ofNat 125), RItem.star jsWhitespace] ++
  lits "from" ++ [RItem.star jsWhitespace, RItem.cls jsQuote] ++
  lits "child_process" ++ [RItem.cls jsQuote]

/-- Marker 3: `/work\(.*\)\.then/`. -/
def reWorkThen : Regex :=
  lits "work(" ++ [RItem.star jsDot] ++ lits ").then"

/-- Marker 4: `/process\.env\.SF_API_KEY/`. -/
def reApiKey : Regex := lits "process.env.SF_API_KEY"

/-- Marker 5: `/validateCodeIntegrity/`. -/
def reValidateName : Regex := lits "validateCodeIntegrity"

/-- Marker 6: `/safeWriteWithBackup/`. -/
def reSafeWriteName : Regex := lits "safeWriteWithBackup"

/-- Marker 7: `/secureFetchWithRetry/`. -/
def reSecureFetchName : Regex := lits "secureFetchWithRetry"

/-- Marker 8: `/main\s*\(\)/`. -/
def reMainCall : Regex :=
  lits "main" ++ [RItem.star jsWhitespace] ++ lits "()"

/-- The `requiredPatterns` array of the source, in source order. -/
def requiredPatterns : List Regex :=
  [reFsImport, reChildProcessImport, reWorkThen, reApiKey,
   reValidateName, reSafeWriteName, reSecureFetchName, reMainCall]

/-- `validateCodeIntegrity` from the source:
`requiredPatterns.every((pattern) => pattern.test(code))`. -/
def validateCodeIntegrity (code : String) : Bool :=
  requiredPatterns.all (fun p => reTest p code)

/-- Does a pattern item reject the newline character?  All items of
`reWorkThen` do: its literals are printable characters and `jsDot`
excludes line terminators. -/
def itemRejectsNl : RItem → Bool
  | RItem.lit c => !(c == Char.ofNat 10)
  | RItem.cls p => !(p (Char.ofNat 10))
  | RItem.star p => !(p (Char.ofNat 10))

/-- Every item of the pattern rejects the newline character, so no match
of the pattern can contain a newline. -/
def rejectsNl (r : Regex) : Bool := r.all itemRejectsNl

/-- The character list of a text given as its list of lines: the lines'
characters joined by the newline character. -/
def joinNlData : List String → List Char
  | [] => []
  | [l] => l.data
  | l :: ls => l.data ++ Char.ofNat 10 :: joinNlData ls

-- Constants from the source.
def MAX_RETRIES : Nat := 3
def RETRY_DELAY : Nat := 2000
def MAX_RESTART_ATTEMPTS : Nat := 5
def RESTART_DELAY : Nat := 3000

/-! ## Remote Call Client (`secureFetchWithRetry`, `work`) -/

/-- The expected response shape `{ choices: [{ message: { content } }] }`;
every field along the optional-chain access path may be absent. -/
structure ApiMessage where
  content : Option String
  deriving DecidableEq, Repr

structure ApiChoice where
  message : Option ApiMessage
  deriving DecidableEq, Repr

structure ApiResponse where
  choices : Option (List ApiChoice)
  deriving DecidableEq, Repr

/-- The value at `response?.choices?.[0]?.message?.content`, when present. -/
def contentOf (r : ApiResponse) : Option String :=
  match r.choices with
  | none => none
  | some cs =>
    match cs.head? with
    | none => none
    | some c =>
      match c.message with
      | none => none
      | some m => m.content

/-- The observable outcome of one `fetch` attempt, abstracting the
transport: the promise rejects; the response is not `ok` (with the error
body read succeeding or failing); `response.json()` rejects; or a parsed
response is returned. -/
inductive FetchStep where
  | netFail (e : JsError)
  | httpFail (status : Nat) (body : Option String)
  | jsonFail (e : JsError)
  | success (v : ApiResponse)

/-- The `try` block of `secureFetchWithRetry` for one attempt: a non-`ok`
response is converted to
`Error("API responded with <status>: <errorBody>")`, with the placeholder
`"Failed to read error body"` when reading the body fails. -/
def attemptResult : FetchStep → Except JsError ApiResponse
  | FetchStep.netFail e => Except.error e
  | FetchStep.httpFail status body =>
    Except.error (mkError ("API responded with " ++ toString status ++ ": " ++
      body.getD "Failed to read error body"))
  | FetchStep.jsonFail e => Except.error e
  | FetchStep.success v => Except.ok v

/-- The observable run of `secureFetchWithRetry`: how many `fetch` attempts
were made, the sleeps between attempts (each `RETRY_DELAY` ms, in order),
and the final settlement. -/
structure FetchRun where
  attempts : Nat
  sleeps : List Nat
  result : Except JsError ApiResponse
  deriving Repr

/-- `secureFetchWithRetry(url, options, retries)`.  The transport is a
function from the 0-based attempt index to that attempt's outcome.  On a
caught failure with `retries > 0` the source sleeps `RETRY_DELAY` and
recurses with `retries - 1`; with `retries = 0` it throws
`Error("API request failed after <MAX_RETRIES> attempts: " + errorToString(e))`
— note the message always names the constant `MAX_RETRIES`, not the actual
number of attempts performed. -/
def secureFetchWithRetry (transport : Nat → FetchStep) :
    Nat → Nat → FetchRun
  | idx, 0 =>
    match attemptResult (transport idx) with
    | Except.ok v => ⟨1, [], Except.ok v⟩
    | Except.error e =>
      ⟨1, [], Except.error (mkError ("API request failed after " ++
        toString MAX_RETRIES ++ " attempts: " ++ errorToString e))⟩
  | idx, r + 1 =>
    match attemptResult (transport idx) with
    | Except.ok v => ⟨1, [], Except.ok v⟩
    | Except.error _ =>
      let rest := secureFetchWithRetry transport (idx + 1) r
      ⟨rest.attempts + 1, RETRY_DELAY :: rest.sleeps, rest.result⟩

/-- JavaScript `String.prototype.trim`: strip `jsWhitespace` characters from
both ends. -/
def jsTrim (s : String) : String :=
  String.mk (((s.data.dropWhile jsWhitespace).reverse.dropWhile
    jsWhitespace).reverse)

/-- `work(dest)` from the source: call `secureFetchWithRetry` with the
default retry budget, reject with `Error("Invalid API response structure")`
unless `response?.choices?.[0]?.message?.content` is a non-empty string
(the empty string is falsy in JavaScript), and otherwise resolve with the
content trimmed.  The request body built from `dest` is abstracted into the
transport. -/
def work (transport : Nat → FetchStep) (dest : String) :
    Except JsError String :=
  let _ := dest
  match (secureFetchWithRetry transport 0 MAX_RETRIES).result with
  | Except.error e => Except.error e
  | Except.ok response =>
    match contentOf response with
    | none => Except.error (mkError "Invalid API response structure")
    | some s =>
      if s = "" then Except.error (mkError "Invalid API response structure")
      else Except.ok (jsTrim s)

/-! ## Filesystem model and `safeWriteWithBackup` -/

/-- A filesystem: contents per path. -/
def FS := String → Option String

/-- `writeFile p c`. -/
def setFile (fs : FS) (p c : String) : FS :=
  fun q => if q = p then some c else fs q

/-- POSIX `rename a b`: `b` receives the contents of `a`, `a` disappears
(unless `a = b`, in which case this is a no-op). -/
def renameFs (fs : FS) (a b : String) : FS :=
  fun q => if q = b then fs a else if q = a then none else fs q

/-- A world: the current filesystem plus the history of filesystems after
each mutation performed by the call, oldest first. -/
structure FsWorld where
  fs : FS
  hist : List FS

/-- Perform a `writeFile`, recording the new state. -/
def fsSet (w : FsWorld) (p c : String) : FsWorld :=
  ⟨setFile w.fs p c, w.hist ++ [setFile w.fs p c]⟩

/-- Perform a `rename`, recording the new state. -/
def fsRen (w : FsWorld) (a b : String) : FsWorld :=
  ⟨renameFs w.fs a b, w.hist ++ [renameFs w.fs a b]⟩

/-- Failure injection for the filesystem operations `safeWriteWithBackup`
performs, in source order: the temp-file write, the backup rename, the
commit rename, the forensic `.failed` rename (whose failure the source
swallows), and the restore rename in the catch block.  `none` means the
operation succeeds; `some e` means it rejects with `e`. -/
structure FsOracle where
  writeTemp : Option JsError
  backupRename : Option JsError
  commitRename : Option JsError
  cleanupRename : Option JsError
  restoreRename : Option JsError

/-- `BACKUP_SUFFIX` from the source: `".backup." + Date.now()`, with the
module-load timestamp passed in as `startNow`. -/
def backupSuffix (startNow : Nat) : String := ".backup." ++ toString startNow

/-- `targetPath + BACKUP_SUFFIX`. -/
def backupPathOf (t : String) (startNow : Nat) : String :=
  t ++ backupSuffix startNow

/-- `targetPath + ".tmp." + Date.now() + ".ts"`. -/
def tmpPathOf (t : String) (tmpNow : Nat) : String :=
  t ++ (".tmp." ++ toString tmpNow ++ ".ts")

/-- First half of the catch block: if the temp file exists, best-effort
rename it to `tempPath + ".failed"`; a rejection of this rename is
swallowed (`.catch(() => {})`). -/
def cleanupTempPhase (o : FsOracle) (tempPath : String) (w : FsWorld) :
    FsWorld :=
  match w.fs tempPath, o.cleanupRename with
  | some _, some _ => w
  | some _, none => fsRen w tempPath (tempPath ++ ".failed")
  | none, _ => w

/-- Second half of the catch block: if the backup exists, rename it back
over the target — a rejection of this restore rename propagates in place of
the original error — then re-throw the original error. -/
def restorePhase (o : FsOracle) (backupPath targetPath : String)
    (w : FsWorld) (e : JsError) : FsWorld × Except JsError Unit :=
  match w.fs backupPath, o.restoreRename with
  | some _, some e2 => (w, Except.error e2)
  | some _, none => (fsRen w backupPath targetPath, Except.error e)
  | none, _ => (w, Except.error e)

/-- The `catch` block of `safeWriteWithBackup`: the temp-file cleanup phase
followed by the backup-restore phase, re-throwing the original error `e`. -/
def writeCleanup (o : FsOracle) (tempPath backupPath targetPath : String)
    (w : FsWorld) (e : JsError) : FsWorld × Except JsError Unit :=
  restorePhase o backupPath targetPath (cleanupTempPhase o tempPath w) e

/-- The commit step: rename the temp file over the target, entering the
catch block if the rename rejects. -/
def commitStep (o : FsOracle) (tempPath backupPath targetPath : String)
    (w : FsWorld) : FsWorld × Except JsError Unit :=
  match o.commitRename with
  | some e => writeCleanup o tempPath backupPath targetPath w e
  | none => (fsRen w tempPath targetPath, Except.ok ())

/-- `safeWriteWithBackup(content, targetPath)`: write the temp file, run
`validateCodeIntegrity` (throwing
`Error("Generated code failed integrity validation")` on failure), rename a
pre-existing target to the backup path, rename the temp file over the
target; any failure enters `writeCleanup`. -/
def safeWriteWithBackup (o : FsOracle) (tmpNow startNow : Nat)
    (content targetPath : String) (fs0 : FS) :
    FsWorld × Except JsError Unit :=
  let tempPath := tmpPathOf targetPath tmpNow
  let backupPath := backupPathOf targetPath startNow
  let w0 : FsWorld := ⟨fs0, []⟩
  match o.writeTemp with
  | some e => writeCleanup o tempPath backupPath targetPath w0 e
  | none =>
    let w1 := fsSet w0 tempPath content
    if validateCodeIntegrity content then
      match w1.fs targetPath with
      | some _ =>
        match o.backupRename with
        | some e => writeCleanup o tempPath backupPath targetPath w1 e
        | none =>
          commitStep o tempPath backupPath targetPath
            (fsRen w1 targetPath backupPath)
      | none => commitStep o tempPath backupPath targetPath w1
    else
      writeCleanup o tempPath backupPath targetPath w1
        (mkError "Generated code failed integrity validation")

/-! ## Restart Supervisor (`restartProcess`) -/

/-- The child-process behaviour per spawn attempt: an immediate spawn error
delivered to the `execFile` completion callback, and the child's exit code
delivered to the `exit` listener.  Both signals are delivered
asynchronously by the Node event loop. -/
structure SpawnOracle where
  spawnErr : Nat → Option JsError
  exitCode : Nat → Int

/-- How the current process's run of a routine ends: the process terminates
with an exit code, or the routine's promise rejects. -/
inductive ProcOutcome where
  | exited (code : Nat)
  | raised (e : JsError)
  deriving DecidableEq, Repr

/-- The observable run of `restartProcess`: how many children were spawned
by this process, and how the call ends. -/
structure RestartRun where
  spawns : Nat
  outcome : ProcOutcome
  deriving Repr

/-- `restartProcess(attempt)` from the source.  With `attempt` above the
ceiling it throws
`Error("Failed to restart after " + MAX_RESTART_ATTEMPTS + " attempts")`.
Otherwise the promise executor runs synchronously: `execFile` spawns the
child and registers the completion callback, the `exit` listener is
registered, `child.unref()` runs, and then `process.exit(0)` executes —
still synchronously inside the executor — terminating the current process
with code 0.  The completion and `exit` callbacks are asynchronous, so they
never run before the process exits: the `setTimeout`-scheduled retries with
`attempt + 1` are unreachable, and the spawn oracle's failure signals are
unobservable.  This embeds the source as written; the recursive retry and
the exhaustion error are dead code for every start attempt `≤ 5`. -/
def restartProcess (o : SpawnOracle) (attempt : Nat) : RestartRun :=
  let _ := o
  if attempt > MAX_RESTART_ATTEMPTS then
    ⟨0, ProcOutcome.raised (mkError ("Failed to restart after " ++
      toString MAX_RESTART_ATTEMPTS ++ " attempts"))⟩
  else ⟨1, ProcOutcome.exited 0⟩

/-! ## Update Orchestrator (`main`) -/

/-- All external behaviour one run of `main` can observe: the
`readFileSync(__filename)` outcome, the transport, the filesystem failure
injection, the spawn behaviour, and the three `Date.now()` reads (prompt
freshness token, temp-file suffix, module-load `BACKUP_SUFFIX`). -/
structure MainOracle where
  readSelf : Except JsError String
  transport : Nat → FetchStep
  fsO : FsOracle
  spawnO : SpawnOracle
  promptNow : Nat
  tmpNow : Nat
  startNow : Nat

/-- The upgrade prompt template from `main`, embedding the freshness token
and the current program text. -/
def upgradePrompt (now : Nat) (content : String) : String :=
  "\n## 自我认知\n- 注意：你本身是一段代码\n\n## 目标\n" ++
  "- 你的目标是升级自己，升级完成后以便更好更快的升级自己\n" ++
  "- 每次生成的结果都会覆盖原文件，覆盖成功后重新运行新程序\n\n" ++
  "## 升级要求\n- 当前代码版本：" ++ toString now ++
  "\n- 关键改进点：错误处理强化\n" ++
  "- 保持核心循环：读文件 -> 请求API -> 覆盖文件 -> 重启\n\n" ++
  content ++ "\n\n请生成可运行的完整代码文件，不要任何额外解释"

/-- The observable result of one run of `main`: the final filesystem,
whether the catch-block fallback `restartProcess()` was invoked, and how
the process run ends. -/
structure MainRes where
  fs : FS
  fallbackRestart : Bool
  outcome : ProcOutcome

/-- The catch block of `main`: log, preserve the current version (no write),
and call `restartProcess()`; if even that rejects, `process.exit(1)`. -/
def mainFallback (o : MainOracle) (fs : FS) : MainRes :=
  match (restartProcess o.spawnO 1).outcome with
  | ProcOutcome.exited c => ⟨fs, true, ProcOutcome.exited c⟩
  | ProcOutcome.raised _ => ⟨fs, true, ProcOutcome.exited 1⟩

/-- `main()` from the source: read own source, build the upgrade prompt,
`work`, `safeWriteWithBackup`, `restartProcess()`; on any failure fall into
`mainFallback`. -/
def mainRun (o : MainOracle) (filename : String) (fs0 : FS) : MainRes :=
  match o.readSelf with
  | Except.error _ => mainFallback o fs0
  | Except.ok content =>
    match work o.transport (upgradePrompt o.promptNow content) with
    | Except.error _ => mainFallback o fs0
    | Except.ok newCode =>
      match safeWriteWithBackup o.fsO o.tmpNow o.startNow newCode filename
          fs0 with
      | (w, Except.error _) => mainFallback o w.fs
      | (w, Except.ok _) =>
        match (restartProcess o.spawnO 1).outcome with
        | ProcOutcome.exited c => ⟨w.fs, false, ProcOutcome.exited c⟩
        | ProcOutcome.raised _ => mainFallback o w.fs

/-- Does some step of the `try` block of `main` fail for this oracle and
initial filesystem?  Mirrors the sequencing of `mainRun`. -/
def mainStepFails (o : MainOracle) (filename : String) (fs0 : FS) : Bool :=
  match o.readSelf with
  | Except.error _ => true
  | Except.ok content =>
    match work o.transport (upgradePrompt o.promptNow content) with
    | Except.error _ => true
    | Except.ok newCode =>
      match (safeWriteWithBackup o.fsO o.tmpNow o.startNow newCode filename
          fs0).2 with
      | Except.error _ => true
      | Except.ok _ => false

/-! ## The program source text -/

/-- The program's own current source text (`src/unnamed/part_000`),
transcribed verbatim, one string literal per source line (no newline
characters inside the literals); braces, quotes, apostrophes and
backticks are written with escape sequences. -/
def selfLines : List String :=
  ["import \x7b readFileSync, existsSync \x7d from \"fs\";",
   "import \x7b writeFile, rename \x7d from \"fs/promises\";",
   "import \x7b execFile \x7d from \"child_process\";",
   "",
   "const HOST = \x60https://api.siliconflow.cn/v1/chat/completions\x60 as const;",
   "const MAX_RETRIES = 3;",
   "const RETRY_DELAY = 2000;",
   "const BACKUP_SUFFIX = \x60.backup.$\x7bDate.now()\x7d\x60;",
   "const MAX_RESTART_ATTEMPTS = 5;",
   "const RESTART_DELAY = 3000;",
   "",
   "async function secureFetchWithRetry(",
   "  url: string,",
   "  options: RequestInit,",
   "  retries = MAX_RETRIES",
   "): Promise<any> \x7b",
   "  try \x7b",
   "    const response = await fetch(url, options);",
   "    if (!response.ok) \x7b",
   "      const errorBody = await response.text().catch(() => \"Failed to read error body\");",
   "      throw new Error(\x60API responded with $\x7bresponse.status\x7d: $\x7berrorBody\x7d\x60);",
   "    \x7d",
   "    return await response.json();",
   "  \x7d catch (error) \x7b",
   "    if (retries > 0) \x7b",
   "      console.warn(\x60Retrying... ($\x7bMAX_RETRIES - retries + 1\x7d/$\x7bMAX_RETRIES\x7d)\x60);",
   "      await new Promise((resolve) => setTimeout(resolve, RETRY_DELAY));",
   "      return secureFetchWithRetry(url, options, retries - 1);",
   "    \x7d",
   "    throw new Error(",
   "      \x60API request failed after $\x7bMAX_RETRIES\x7d attempts: $\x7berrorToString(error)\x7d\x60",
   "    );",
   "  \x7d",
   "\x7d",
   "",
   "function errorToString(error: unknown): string \x7b",
   "  if (error instanceof Error) \x7b",
   "    return \x60$\x7berror.name\x7d: $\x7berror.message\x7d\\n$\x7berror.stack || \"No stack trace\"\x7d\x60;",
   "  \x7d",
   "  return String(error);",
   "\x7d",
   "",
   "function validateCodeIntegrity(code: string): boolean \x7b",
   "  const requiredPatterns = [",
   "    /import\\s*\x7b.*\x7d\\s*from\\s*[\"\x27]fs[\"\x27]/,",
   "    /import\\s*\x7b.*\x7d\\s*from\\s*[\"\x27]child_process[\"\x27]/,",
   "    /work\\(.*\\)\\.then/,",
   "    /process\\.env\\.SF_API_KEY/,",
   "    /validateCodeIntegrity/,",
   "    /safeWriteWithBackup/,",
   "    /secureFetchWithRetry/,",
   "    /main\\s*\\(\\)/",
   "  ];",
   "  return requiredPatterns.every((pattern) => pattern.test(code));",
   "\x7d",
   "",
   "async function safeWriteWithBackup(",
   "  content: string,",
   "  targetPath: string",
   "): Promise<void> \x7b",
   "  const tempPath = \x60$\x7btargetPath\x7d.tmp.$\x7bDate.now()\x7d.ts\x60;",
   "",
   "  try \x7b",
   "    // 写入临时文件",
   "    await writeFile(tempPath, content, \"utf-8\");",
   "    ",
   "    // 验证代码完整性",
   "    if (!validateCodeIntegrity(content)) \x7b",
   "      throw new Error(\"Generated code failed integrity validation\");",
   "    \x7d",
   "",
   "    // 创建备份",
   "    if (existsSync(targetPath)) \x7b",
   "      await rename(targetPath, \x60$\x7btargetPath\x7d$\x7bBACKUP_SUFFIX\x7d\x60);",
   "    \x7d",
   "",
   "    // 原子替换",
   "    await rename(tempPath, targetPath);",
   "    console.log(",
   "      \x60File updated successfully. Backup: $\x7btargetPath\x7d$\x7bBACKUP_SUFFIX\x7d\x60",
   "    );",
   "  \x7d catch (error) \x7b",
   "    console.error(\x60File update failed: $\x7berrorToString(error)\x7d\x60);",
   "",
   "    // 清理临时文件",
   "    if (existsSync(tempPath)) \x7b",
   "      await rename(tempPath, \x60$\x7btempPath\x7d.failed\x60).catch(() => \x7b\x7d);",
   "    \x7d",
   "",
   "    // 恢复备份",
   "    if (existsSync(\x60$\x7btargetPath\x7d$\x7bBACKUP_SUFFIX\x7d\x60)) \x7b",
   "      await rename(\x60$\x7btargetPath\x7d$\x7bBACKUP_SUFFIX\x7d\x60, targetPath);",
   "      console.warn(\"Restored from backup\");",
   "    \x7d",
   "    throw error;",
   "  \x7d",
   "\x7d",
   "",
   "async function work(dest: string): Promise<string> \x7b",
   "  const body = \x7b",
   "    model: \"Pro/deepseek-ai/DeepSeek-R1\",",
   "    messages: [",
   "      \x7b",
   "        role: \"system\",",
   "        content: \x60你正在升级一个自迭代程序。返回必须是可直接执行的完整代码文件，保持自我升级能力并优化：",
   "1. 提高安全性 ",
   "2. 增强错误处理 ",
   "3. 确保重启可靠性",
   "# 规范",
   "- 必须包含所有import语句",
   "- 必须保留核心工作循环",
   "- 禁止添加外部依赖\x60,",
   "      \x7d,",
   "      \x7b",
   "        role: \"user\",",
   "        content: dest,",
   "      \x7d,",
   "    ],",
   "    temperature: 0.2,",
   "  \x7d;",
   "",
   "  const options = \x7b",
   "    method: \"POST\",",
   "    headers: \x7b",
   "      Authorization: \x60Bearer $\x7bprocess.env.SF_API_KEY\x7d\x60,",
   "      \"Content-Type\": \"application/json\",",
   "    \x7d,",
   "    body: JSON.stringify(body),",
   "  \x7d;",
   "",
   "  const response = await secureFetchWithRetry(HOST, options);",
   "  ",
   "  // 验证响应结构",
   "  if (!response?.choices?.[0]?.message?.content) \x7b",
   "    throw new Error(\"Invalid API response structure\");",
   "  \x7d",
   "  ",
   "  return response.choices[0].message.content.trim();",
   "\x7d",
   "",
   "async function restartProcess(attempt = 1): Promise<void> \x7b",
   "  if (attempt > MAX_RESTART_ATTEMPTS) \x7b",
   "    throw new Error(\x60Failed to restart after $\x7bMAX_RESTART_ATTEMPTS\x7d attempts\x60);",
   "  \x7d",
   "",
   "  return new Promise((resolve, reject) => \x7b",
   "    console.log(\x60Restarting process (attempt $\x7battempt\x7d/$\x7bMAX_RESTART_ATTEMPTS\x7d)...\x60);",
   "    ",
   "    const child = execFile(process.argv[0], [process.argv[1]], (error) => \x7b",
   "      if (error) \x7b",
   "        console.error(\x60Restart failed: $\x7berrorToString(error)\x7d\x60);",
   "        setTimeout(() => restartProcess(attempt + 1).then(resolve).catch(reject), RESTART_DELAY);",
   "      \x7d",
   "    \x7d);",
   "",
   "    child.on(\x27exit\x27, (code) => \x7b",
   "      if (code !== 0) \x7b",
   "        console.error(\x60Child process exited with code $\x7bcode\x7d\x60);",
   "        setTimeout(() => restartProcess(attempt + 1).then(resolve).catch(reject), RESTART_DELAY);",
   "      \x7d",
   "    \x7d);",
   "",
   "    child.unref();",
   "    process.exit(0);",
   "  \x7d);",
   "\x7d",
   "",
   "async function main() \x7b",
   "  try \x7b",
   "    const content = readFileSync(__filename, \"utf-8\");",
   "    const upgradePrompt = \x60",
   "## 自我认知",
   "- 注意：你本身是一段代码",
   "",
   "## 目标",
   "- 你的目标是升级自己，升级完成后以便更好更快的升级自己",
   "- 每次生成的结果都会覆盖原文件，覆盖成功后重新运行新程序",
   "",
   "## 升级要求",
   "- 当前代码版本：$\x7bDate.now()\x7d",
   "- 关键改进点：错误处理强化",
   "- 保持核心循环：读文件 -> 请求API -> 覆盖文件 -> 重启",
   "",
   "$\x7bcontent\x7d",
   "",
   "请生成可运行的完整代码文件，不要任何额外解释\x60;",
   "",
   "    const newCode = await work(upgradePrompt);",
   "    await safeWriteWithBackup(newCode, __filename);",
   "    await restartProcess();",
   "  \x7d catch (error) \x7b",
   "    console.error(\x60[$\x7bnew Date().toISOString()\x7d] Critical failure: $\x7berrorToString(error)\x7d\x60);",
   "    console.error(\"Maintaining current version for recovery\");",
   "    ",
   "    try \x7b",
   "      await restartProcess();",
   "    \x7d catch (restartError) \x7b",
   "      console.error(\x60Fatal restart failure: $\x7berrorToString(restartError)\x7d\x60);",
   "      process.exit(1);",
   "    \x7d",
   "  \x7d",
   "\x7d",
   "",
   "// 执行入口",
   "main().catch((e) => \x7b",
   "  console.error(\"Unhandled top-level exception:\", errorToString(e));",
   "  process.exit(1);",
   "\x7d);",
   "",
   "",
   "// 需要添加 错误自动处理逻辑"]

/-- The program's own current source text: its lines joined by the
newline character. -/
def selfSource : String := String.mk (joinNlData selfLines)

/-! ## Concrete fixtures -/

/-- A small candidate text containing every one of the eight integrity
markers. -/
def validMarkersText : String :=
  "import \x7b x \x7d from \"fs\"\n" ++
  "import \x7b x \x7d from \"child_process\"\n" ++
  "work(x).then\n" ++
  "process.env.SF_API_KEY\n" ++
  "validateCodeIntegrity\n" ++
  "safeWriteWithBackup\n" ++
  "secureFetchWithRetry\n" ++
  "main()"

/-- The filesystem oracle injecting no failure. -/
def noFailFs : FsOracle := ⟨none, none, none, none, none⟩

/-- A one-file filesystem holding `"OLD"` at `"app.ts"`. -/
def fsOld : FS := fun p => if p = "app.ts" then some "OLD" else none

/-- The empty filesystem. -/
def emptyFs : FS := fun _ => none

/-- A well-shaped remote response whose content carries surrounding
whitespace. -/
def rOk : ApiResponse := ⟨some [⟨some ⟨some "  hello  "⟩⟩]⟩

/-- A `main` oracle: reading the program succeeds, every transport attempt
rejects, filesystem operations succeed, spawned children exit 0. -/
def failingTransportOracle : MainOracle :=
  ⟨Except.ok "SRC", fun _ => FetchStep.netFail (mkError "ECONNREFUSED"),
   noFailFs, ⟨fun _ => none, fun _ => 0⟩, 1, 2, 3⟩

/-! ## Path disequalities

The temp path, backup path, `.failed` path and target path of one
`safeWriteWithBackup` call are pairwise distinct strings; these lemmas
justify reading the model filesystem at one path across operations on the
others. -/

lemma str_data_append (a b : String) : (a ++ b).data = a.data ++ b.data := by
  cases a; cases b; rfl

lemma str_ext {a b : String} (h : a.data = b.data) : a = b := by
  cases a; cases b; cases h; rfl

lemma str_append_assoc (a b c : String) : a ++ b ++ c = a ++ (b ++ c) := by
  apply str_ext
  simp [str_data_append]

lemma str_append_cancel_left {t a b : String} (h : t ++ a = t ++ b) :
    a = b := by
  apply str_ext
  have hd := congrArg String.data h
  rw [str_data_append, str_data_append] at hd
  exact List.append_cancel_left hd

lemma str_append_ne_self (t s : String) (h : s.data.length ≠ 0) :
    t ++ s ≠ t := by
  intro he
  have hd := congrArg (fun q => q.data.length) he
  simp only [str_data_append, List.length_append] at hd
  omega

lemma tmp_prefix_ne_backup_prefix (x y : String) :
    (".tmp." ++ x : String) ≠ ".backup." ++ y := by
  intro h
  have hd := congrArg String.data h
  rw [str_data_append, str_data_append] at hd
  have h1 : (".tmp." : String).data = ['.', 't', 'm', 'p', '.'] := rfl
  have h2 : (".backup." : String).data =
      ['.', 'b', 'a', 'c', 'k', 'u', 'p', '.'] := rfl
  rw [h1, h2] at hd
  simp only [List.cons_append, List.nil_append] at hd
  injection hd with h3 hd2
  injection hd2 with hch hd3
  exact absurd hch (by decide)

lemma tmpPath_ne_target (t : String) (n : Nat) : tmpPathOf t n ≠ t := by
  unfold tmpPathOf
  apply str_append_ne_self
  simp only [str_data_append, List.length_append, List.length_cons,
    List.length_nil]
  omega

lemma backupPath_ne_target (t : String) (n : Nat) :
    backupPathOf t n ≠ t := by
  unfold backupPathOf backupSuffix
  apply str_append_ne_self
  simp only [str_data_append, List.length_append, List.length_cons,
    List.length_nil]
  omega

lemma tmpPath_ne_backupPath (t : String) (n m : Nat) :
    tmpPathOf t n ≠ backupPathOf t m := by
  unfold tmpPathOf backupPathOf backupSuffix
  intro h
  have h2 := str_append_cancel_left h
  rw [str_append_assoc] at h2
  exact tmp_prefix_ne_backup_prefix _ _ h2

lemma failedPath_ne_target (t : String) (n : Nat) :
    tmpPathOf t n ++ ".failed" ≠ t := by
  unfold tmpPathOf
  rw [str_append_assoc]
  apply str_append_ne_self
  simp only [str_data_append, List.length_append, List.length_cons,
    List.length_nil]
  omega

lemma failedPath_ne_backupPath (t : String) (n m : Nat) :
    tmpPathOf t n ++ ".failed" ≠ backupPathOf t m := by
  unfold tmpPathOf backupPathOf backupSuffix
  rw [str_append_assoc]
  intro h
  have h2 := str_append_cancel_left h
  rw [str_append_assoc (".tmp." ++ toString n) (".ts" : String)
    (".failed" : String), str_append_assoc] at h2
  exact tmp_prefix_ne_backup_prefix _ _ h2

/-! ## Scanner equivalence -/

lemma clen8_eq_clen : ∀ n l, List.length l ≤ n →
    ∀ acc, clen8 l acc = clen l acc := by
  intro n
  induction n with
  | zero =>
    intro l hl acc
    have h0 : l = [] := List.eq_nil_of_length_eq_zero (Nat.le_zero.mp hl)
    subst h0
    rfl
  | succ k ih =>
    intro l hl acc
    rcases l with _ | ⟨x1, _ | ⟨x2, _ | ⟨x3, _ | ⟨x4, _ |
      ⟨x5, _ | ⟨x6, _ | ⟨x7, _ | ⟨x8, rest⟩⟩⟩⟩⟩⟩⟩⟩
    · rfl
    · rfl
    · rfl
    · rfl
    · rfl
    · rfl
    · rfl
    · rfl
    · have hle : List.length rest ≤ k := by
        simp only [List.length_cons] at hl
        omega
      have hacc : acc + 8 = acc + 1 + 1 + 1 + 1 + 1 + 1 + 1 + 1 := by omega
      simp only [clen8, clen, ih rest hle, hacc]

/-! ## Pointwise filesystem evaluation -/

lemma setFile_same (fs : FS) (p c : String) : setFile fs p c p = some c := by
  simp [setFile]

lemma setFile_other (fs : FS) {p q : String} (c : String) (h : q ≠ p) :
    setFile fs p c q = fs q := by
  simp [setFile, h]

lemma renameFs_dest (fs : FS) (a b : String) : renameFs fs a b b = fs a := by
  simp [renameFs]

lemma renameFs_other (fs : FS) {a b q : String} (h1 : q ≠ b) (h2 : q ≠ a) :
    renameFs fs a b q = fs q := by
  simp [renameFs, h1, h2]

lemma renameFs_src (fs : FS) {a b : String} (h : a ≠ b) :
    renameFs fs a b a = none := by
  simp [renameFs, h]

/-- The catch block, characterized at the target path under the standing
path disequalities: it re-raises the original error, restores the backup
over the target exactly when a backup exists, and every filesystem state it
adds to the history agrees at the target with either the entry state or the
entry state's backup contents. -/
lemma cleanupTempPhase_fs (o : FsOracle) (tp : String) (w : FsWorld)
    (q : String) (hq1 : q ≠ tp) (hq2 : q ≠ tp ++ ".failed") :
    (cleanupTempPhase o tp w).fs q = w.fs q := by
  unfold cleanupTempPhase
  cases w.fs tp <;> cases o.cleanupRename <;>
    simp [fsRen, renameFs_other w.fs hq2 hq1]

lemma cleanupTempPhase_hist (o : FsOracle) (tp : String) (w : FsWorld) :
    ∀ g ∈ (cleanupTempPhase o tp w).hist, g ∈ w.hist ∨
      ∀ q, q ≠ tp → q ≠ tp ++ ".failed" → g q = w.fs q := by
  unfold cleanupTempPhase
  cases w.fs tp <;> cases o.cleanupRename <;>
    simp only [fsRen, List.mem_append, List.mem_singleton]
  case some.none =>
    intro g hg
    rcases hg with hg | hg
    · exact Or.inl hg
    · subst hg
      exact Or.inr (fun q hq1 hq2 => renameFs_other w.fs hq2 hq1)
  all_goals exact fun g hg => Or.inl hg

lemma restorePhase_spec (o : FsOracle) (bp t : String) (w : FsWorld)
    (e : JsError) (hres : o.restoreRename = none) :
    ((restorePhase o bp t w e).2 = Except.error e) ∧
    ((restorePhase o bp t w e).1.fs t =
      if (w.fs bp).isSome then w.fs bp else w.fs t) ∧
    (∀ g ∈ (restorePhase o bp t w e).1.hist,
      g ∈ w.hist ∨ g t = w.fs bp) := by
  unfold restorePhase
  cases hb : w.fs bp with
  | none =>
    exact ⟨rfl, by simp, fun g hg => Or.inl hg⟩
  | some B =>
    rw [hres]
    refine ⟨rfl, ?_, ?_⟩
    · show renameFs w.fs bp t t = _
      rw [renameFs_dest, hb]
      simp
    · intro g hg
      simp only [fsRen, List.mem_append, List.mem_singleton] at hg
      rcases hg with hg | hg
      · exact Or.inl hg
      · subst hg
        exact Or.inr (by rw [renameFs_dest, hb])

/-- The catch block, characterized at the target path under the standing
path disequalities: it re-raises the original error, restores the backup
over the target exactly when a backup exists, and every filesystem state it
adds to the history agrees at the target with either the entry state or the
entry state's backup contents. -/
lemma writeCleanup_target (o : FsOracle) (tp bp t : String) (w : FsWorld)
    (e : JsError)
    (hres : o.restoreRename = none)
    (h1 : tp ≠ t) (h2 : tp ≠ bp) (h3 : tp ++ ".failed" ≠ t)
    (h4 : tp ++ ".failed" ≠ bp) :
    ((writeCleanup o tp bp t w e).2 = Except.error e) ∧
    ((writeCleanup o tp bp t w e).1.fs t =
      if (w.fs bp).isSome then w.fs bp else w.fs t) ∧
    (∀ g ∈ (writeCleanup o tp bp t w e).1.hist,
      g ∈ w.hist ∨ g t = w.fs t ∨ g t = w.fs bp) := by
  unfold writeCleanup
  have hbp1 : (cleanupTempPhase o tp w).fs bp = w.fs bp :=
    cleanupTempPhase_fs o tp w bp (Ne.symm h2) (Ne.symm h4)
  have ht1 : (cleanupTempPhase o tp w).fs t = w.fs t :=
    cleanupTempPhase_fs o tp w t (Ne.symm h1) (Ne.symm h3)
  obtain ⟨r1, r2, r3⟩ :=
    restorePhase_spec o bp t (cleanupTempPhase o tp w) e hres
  refine ⟨r1, by rw [r2, hbp1, ht1], ?_⟩
  intro g hg
  rcases r3 g hg with hg1 | hg1
  · rcases cleanupTempPhase_hist o tp w g hg1 with h | h
    · exact Or.inl h
    · exact Or.inr (Or.inl (h t (Ne.symm h1) (Ne.symm h3)))
  · exact Or.inr (Or.inr (hg1.trans hbp1))

/-- The catch block when no file exists at the backup path: no restore is
attempted (so the restore oracle is irrelevant), the original error is
re-raised, and every path other than the temp path and its `.failed`
sibling is untouched. -/
lemma writeCleanup_no_backup (o : FsOracle) (tp bp t : String)
    (w : FsWorld) (e : JsError)
    (hbp : w.fs bp = none) (h2 : tp ≠ bp) (h4 : tp ++ ".failed" ≠ bp) :
    (writeCleanup o tp bp t w e).2 = Except.error e ∧
    ∀ q, q ≠ tp → q ≠ tp ++ ".failed" →
      (writeCleanup o tp bp t w e).1.fs q = w.fs q := by
  have hbp1 : (cleanupTempPhase o tp w).fs bp = none := by
    rw [cleanupTempPhase_fs o tp w bp (Ne.symm h2) (Ne.symm h4)]; exact hbp
  unfold writeCleanup restorePhase
  rw [hbp1]
  exact ⟨rfl, fun q hq1 hq2 => cleanupTempPhase_fs o tp w q hq1 hq2⟩

/-- Claim C2: for every target path with pre-existing content `C` and every
new content `N` that passes the integrity validator, a successful
`safeWriteWithBackup(N, targetPath)` call — no injected filesystem failure
— leaves the target path containing exactly `N` and the backup file (the
target path plus the run-scoped backup suffix) containing exactly `C`. -/
theorem safeWriteWithBackup_success_replaces_and_backs_up
    (o : FsOracle) (tn sn : Nat) (N t C : String) (fs0 : FS)
    (hC : fs0 t = some C)
    (hvalid : validateCodeIntegrity N = true)
    (hwt : o.writeTemp = none) (hbr : o.backupRename = none)
    (hcm : o.commitRename = none) :
    (safeWriteWithBackup o tn sn N t fs0).2 = Except.ok () ∧
    (safeWriteWithBackup o tn sn N t fs0).1.fs t = some N ∧
    (safeWriteWithBackup o tn sn N t fs0).1.fs (backupPathOf t sn) =
      some C := by
  have h1 := tmpPath_ne_target t tn
  have h2 := backupPath_ne_target t sn
  have h3 := tmpPath_ne_backupPath t tn sn
  have hw1t : setFile fs0 (tmpPathOf t tn) N t = some C := by
    rw [setFile_other fs0 N (Ne.symm h1)]; exact hC
  simp only [safeWriteWithBackup, hwt, hvalid, fsSet, commitStep, hbr, hcm,
    hw1t, if_true]
  refine ⟨trivial, ?_, ?_⟩
  · show renameFs (renameFs (setFile fs0 (tmpPathOf t tn) N) t
      (backupPathOf t sn)) (tmpPathOf t tn) t t = some N
    rw [renameFs_dest, renameFs_other _ h3 h1, setFile_same]
  · show renameFs (renameFs (setFile fs0 (tmpPathOf t tn) N) t
      (backupPathOf t sn)) (tmpPathOf t tn) t (backupPathOf t sn) = some C
    rw [renameFs_other _ h2 (Ne.symm h3), renameFs_dest, hw1t]

/-- Claim C1: for every target path holding previously-validated content
`C`, if `safeWriteWithBackup` fails at any step after the temp write — the
integrity validation rejects, or the backup or commit rename fails — then
(with the best-effort cleanup rename left arbitrary and the restore rename
succeeding, and no stale file at the run's backup path) the call leaves the
target path holding `C` again, every intermediate filesystem state has the
target path holding `C` or absent — never unvalidated content — and the
original error of the failing step is re-raised. -/
theorem safeWriteWithBackup_rollback_on_failure
    (o : FsOracle) (tn sn : Nat) (N t C : String) (fs0 : FS)
    (hC : fs0 t = some C)
    (hbk : fs0 (backupPathOf t sn) = none)
    (hwt : o.writeTemp = none)
    (hres : o.restoreRename = none)
    (hfail : validateCodeIntegrity N = false ∨ o.backupRename.isSome = true ∨
      (o.backupRename = none ∧ o.commitRename.isSome = true)) :
    (safeWriteWithBackup o tn sn N t fs0).1.fs t = some C ∧
    (∀ g ∈ (safeWriteWithBackup o tn sn N t fs0).1.hist,
      g t = some C ∨ g t = none) ∧
    ((validateCodeIntegrity N = false ∧
        (safeWriteWithBackup o tn sn N t fs0).2 = Except.error
          (mkError "Generated code failed integrity validation")) ∨
     (∃ e, o.backupRename = some e ∧
        (safeWriteWithBackup o tn sn N t fs0).2 = Except.error e) ∨
     (∃ e, o.commitRename = some e ∧
        (safeWriteWithBackup o tn sn N t fs0).2 = Except.error e)) := by
  have h1 := tmpPath_ne_target t tn
  have h2 := backupPath_ne_target t sn
  have h3 := tmpPath_ne_backupPath t tn sn
  have h4 := failedPath_ne_target t tn
  have h5 := failedPath_ne_backupPath t tn sn
  have hw1t : setFile fs0 (tmpPathOf t tn) N t = some C := by
    rw [setFile_other fs0 N (Ne.symm h1)]; exact hC
  have hw1bp : setFile fs0 (tmpPathOf t tn) N (backupPathOf t sn) = none := by
    rw [setFile_other fs0 N (Ne.symm h3)]; exact hbk
  cases hv : validateCodeIntegrity N with
  | false =>
    have hcall : safeWriteWithBackup o tn sn N t fs0 =
        writeCleanup o (tmpPathOf t tn) (backupPathOf t sn) t
          ⟨setFile fs0 (tmpPathOf t tn) N, [setFile fs0 (tmpPathOf t tn) N]⟩
          (mkError "Generated code failed integrity validation") := by
      simp [safeWriteWithBackup, hwt, hv, fsSet]
    obtain ⟨r1, r2, r3⟩ := writeCleanup_target o (tmpPathOf t tn)
      (backupPathOf t sn) t
      ⟨setFile fs0 (tmpPathOf t tn) N, [setFile fs0 (tmpPathOf t tn) N]⟩
      (mkError "Generated code failed integrity validation")
      hres h1 h3 h4 h5
    simp only [hw1bp, hw1t, Option.isSome_none, Bool.false_eq_true, if_false,
      List.mem_singleton] at r2 r3
    rw [hcall]
    refine ⟨r2, ?_, Or.inl ⟨rfl, r1⟩⟩
    intro g hg
    rcases r3 g hg with hg1 | hg1 | hg1
    · subst hg1; exact Or.inl hw1t
    · exact Or.inl hg1
    · exact Or.inr hg1
  | true =>
    rcases hfail with hf | hf | ⟨hbrn, hf⟩
    · rw [hv] at hf; exact absurd hf (by decide)
    · obtain ⟨e, hbr⟩ := Option.isSome_iff_exists.mp hf
      have hcall : safeWriteWithBackup o tn sn N t fs0 =
          writeCleanup o (tmpPathOf t tn) (backupPathOf t sn) t
            ⟨setFile fs0 (tmpPathOf t tn) N,
              [setFile fs0 (tmpPathOf t tn) N]⟩ e := by
        simp [safeWriteWithBackup, hwt, hv, fsSet, hw1t, hbr]
      obtain ⟨r1, r2, r3⟩ := writeCleanup_target o (tmpPathOf t tn)
        (backupPathOf t sn) t
        ⟨setFile fs0 (tmpPathOf t tn) N, [setFile fs0 (tmpPathOf t tn) N]⟩
        e hres h1 h3 h4 h5
      simp only [hw1bp, hw1t, Option.isSome_none, Bool.false_eq_true,
        if_false, List.mem_singleton] at r2 r3
      rw [hcall]
      refine ⟨r2, ?_, Or.inr (Or.inl ⟨e, hbr, r1⟩)⟩
      intro g hg
      rcases r3 g hg with hg1 | hg1 | hg1
      · subst hg1; exact Or.inl hw1t
      · exact Or.inl hg1
      · exact Or.inr hg1
    · obtain ⟨e, hcm⟩ := Option.isSome_iff_exists.mp hf
      have hw2bp : renameFs (setFile fs0 (tmpPathOf t tn) N) t
          (backupPathOf t sn) (backupPathOf t sn) = some C := by
        rw [renameFs_dest]; exact hw1t
      have hw2t : renameFs (setFile fs0 (tmpPathOf t tn) N) t
          (backupPathOf t sn) t = none :=
        renameFs_src _ (Ne.symm h2)
      have hcall : safeWriteWithBackup o tn sn N t fs0 =
          writeCleanup o (tmpPathOf t tn) (backupPathOf t sn) t
            ⟨renameFs (setFile fs0 (tmpPathOf t tn) N) t (backupPathOf t sn),
              [setFile fs0 (tmpPathOf t tn) N,
               renameFs (setFile fs0 (tmpPathOf t tn) N) t
                 (backupPathOf t sn)]⟩ e := by
        simp [safeWriteWithBackup, hwt, hv, fsSet, hw1t, hbrn, commitStep,
          hcm, fsRen]
      obtain ⟨r1, r2, r3⟩ := writeCleanup_target o (tmpPathOf t tn)
        (backupPathOf t sn) t
        ⟨renameFs (setFile fs0 (tmpPathOf t tn) N) t (backupPathOf t sn),
          [setFile fs0 (tmpPathOf t tn) N,
           renameFs (setFile fs0 (tmpPathOf t tn) N) t (backupPathOf t sn)]⟩
        e hres h1 h3 h4 h5
      simp only [hw2bp, hw2t, Option.isSome_some, if_true,
        List.mem_cons, List.not_mem_nil, or_false] at r2 r3
      rw [hcall]
      refine ⟨r2, ?_, Or.inr (Or.inr ⟨e, hcm, r1⟩)⟩
      intro g hg
      rcases r3 g hg with (hg1 | hg1) | hg1 | hg1
      · subst hg1; exact Or.inl hw1t
      · subst hg1; exact Or.inr hw2t
      · exact Or.inr hg1
      · exact Or.inl hg1

/-- Claim C10: when no file exists at the target path before the call,
`safeWriteWithBackup` creates no backup file: with content that passes
validation it commits the content to the target path and succeeds, and
with content that fails validation it raises the integrity error while the
target path remains absent — no restore is attempted, so the restore
oracle is unconstrained. -/
theorem safeWriteWithBackup_absent_target
    (o : FsOracle) (tn sn : Nat) (N t : String) (fs0 : FS)
    (h0 : fs0 t = none)
    (hbk : fs0 (backupPathOf t sn) = none)
    (hwt : o.writeTemp = none) (hcm : o.commitRename = none) :
    (validateCodeIntegrity N = true →
      (safeWriteWithBackup o tn sn N t fs0).2 = Except.ok () ∧
      (safeWriteWithBackup o tn sn N t fs0).1.fs t = some N ∧
      (safeWriteWithBackup o tn sn N t fs0).1.fs (backupPathOf t sn) =
        none) ∧
    (validateCodeIntegrity N = false →
      (safeWriteWithBackup o tn sn N t fs0).2 = Except.error
        (mkError "Generated code failed integrity validation") ∧
      (safeWriteWithBackup o tn sn N t fs0).1.fs t = none ∧
      (safeWriteWithBackup o tn sn N t fs0).1.fs (backupPathOf t sn) =
        none) := by
  have h1 := tmpPath_ne_target t tn
  have h2 := backupPath_ne_target t sn
  have h3 := tmpPath_ne_backupPath t tn sn
  have h4 := failedPath_ne_target t tn
  have h5 := failedPath_ne_backupPath t tn sn
  have hw1t : setFile fs0 (tmpPathOf t tn) N t = none := by
    rw [setFile_other fs0 N (Ne.symm h1)]; exact h0
  have hw1bp : setFile fs0 (tmpPathOf t tn) N (backupPathOf t sn) = none := by
    rw [setFile_other fs0 N (Ne.symm h3)]; exact hbk
  constructor
  · intro hv
    have hcall : safeWriteWithBackup o tn sn N t fs0 =
        (fsRen ⟨setFile fs0 (tmpPathOf t tn) N,
          [setFile fs0 (tmpPathOf t tn) N]⟩ (tmpPathOf t tn) t,
         Except.ok ()) := by
      simp [safeWriteWithBackup, hwt, hv, fsSet, hw1t, commitStep, hcm]
    rw [hcall]
    refine ⟨rfl, ?_, ?_⟩
    · show renameFs (setFile fs0 (tmpPathOf t tn) N) (tmpPathOf t tn) t t =
        some N
      rw [renameFs_dest, setFile_same]
    · show renameFs (setFile fs0 (tmpPathOf t tn) N) (tmpPathOf t tn) t
        (backupPathOf t sn) = none
      rw [renameFs_other _ h2 (Ne.symm h3), hw1bp]
  · intro hv
    have hcall : safeWriteWithBackup o tn sn N t fs0 =
        writeCleanup o (tmpPathOf t tn) (backupPathOf t sn) t
          ⟨setFile fs0 (tmpPathOf t tn) N, [setFile fs0 (tmpPathOf t tn) N]⟩
          (mkError "Generated code failed integrity validation") := by
      simp [safeWriteWithBackup, hwt, hv, fsSet]
    obtain ⟨r1, r2⟩ := writeCleanup_no_backup o (tmpPathOf t tn)
      (backupPathOf t sn) t
      ⟨setFile fs0 (tmpPathOf t tn) N, [setFile fs0 (tmpPathOf t tn) N]⟩
      (mkError "Generated code failed integrity validation")
      hw1bp h3 h5
    rw [hcall]
    refine ⟨r1, ?_, ?_⟩
    · rw [r2 t (Ne.symm h1) (Ne.symm h4)]
      exact hw1t
    · rw [r2 (backupPathOf t sn) (Ne.symm h3) (Ne.symm h5)]
      exact hw1bp

/-- Whatever step makes `safeWriteWithBackup` fail — the temp write, the
validation, the backup rename or the commit rename — the target path still
holds its previous contents when the call returns, provided the run's
backup path was initially free and the restore rename succeeds. -/
lemma safeWrite_error_target (o : FsOracle) (tn sn : Nat)
    (N t C : String) (fs0 : FS)
    (hC : fs0 t = some C)
    (hbk : fs0 (backupPathOf t sn) = none)
    (hres : o.restoreRename = none) :
    ∀ w e, safeWriteWithBackup o tn sn N t fs0 = (w, Except.error e) →
      w.fs t = some C := by
  have h1 := tmpPath_ne_target t tn
  have h2 := backupPath_ne_target t sn
  have h3 := tmpPath_ne_backupPath t tn sn
  have h4 := failedPath_ne_target t tn
  have h5 := failedPath_ne_backupPath t tn sn
  have hw1t : setFile fs0 (tmpPathOf t tn) N t = some C := by
    rw [setFile_other fs0 N (Ne.symm h1)]; exact hC
  have hw1bp : setFile fs0 (tmpPathOf t tn) N (backupPathOf t sn) = none := by
    rw [setFile_other fs0 N (Ne.symm h3)]; exact hbk
  intro w e heq
  cases hwt : o.writeTemp with
  | some e0 =>
    have hcall : safeWriteWithBackup o tn sn N t fs0 =
        writeCleanup o (tmpPathOf t tn) (backupPathOf t sn) t ⟨fs0, []⟩
          e0 := by
      simp [safeWriteWithBackup, hwt]
    obtain ⟨r1, r2, r3⟩ := writeCleanup_target o (tmpPathOf t tn)
      (backupPathOf t sn) t ⟨fs0, []⟩ e0 hres h1 h3 h4 h5
    have hw : w = (writeCleanup o (tmpPathOf t tn) (backupPathOf t sn) t
        ⟨fs0, []⟩ e0).1 := by
      rw [hcall] at heq
      exact (congrArg Prod.fst heq).symm
    rw [hw, r2]
    simp [hbk, hC]
  | none =>
    cases hv : validateCodeIntegrity N with
    | false =>
      have hcall : safeWriteWithBackup o tn sn N t fs0 =
          writeCleanup o (tmpPathOf t tn) (backupPathOf t sn) t
            ⟨setFile fs0 (tmpPathOf t tn) N,
              [setFile fs0 (tmpPathOf t tn) N]⟩
            (mkError "Generated code failed integrity validation") := by
        simp [safeWriteWithBackup, hwt, hv, fsSet]
      obtain ⟨r1, r2, r3⟩ := writeCleanup_target o (tmpPathOf t tn)
        (backupPathOf t sn) t
        ⟨setFile fs0 (tmpPathOf t tn) N, [setFile fs0 (tmpPathOf t tn) N]⟩
        (mkError "Generated code failed integrity validation")
        hres h1 h3 h4 h5
      have hw : w = (writeCleanup o (tmpPathOf t tn) (backupPathOf t sn) t
          ⟨setFile fs0 (tmpPathOf t tn) N, [setFile fs0 (tmpPathOf t tn) N]⟩
          (mkError "Generated code failed integrity validation")).1 := by
        rw [hcall] at heq
        exact (congrArg Prod.fst heq).symm
      rw [hw, r2]
      simp [hw1bp, hw1t]
    | true =>
      cases hbr : o.backupRename with
      | some e1 =>
        have hcall : safeWriteWithBackup o tn sn N t fs0 =
            writeCleanup o (tmpPathOf t tn) (backupPathOf t sn) t
              ⟨setFile fs0 (tmpPathOf t tn) N,
                [setFile fs0 (tmpPathOf t tn) N]⟩ e1 := by
          simp [safeWriteWithBackup, hwt, hv, fsSet, hw1t, hbr]
        obtain ⟨r1, r2, r3⟩ := writeCleanup_target o (tmpPathOf t tn)
          (backupPathOf t sn) t
          ⟨setFile fs0 (tmpPathOf t tn) N, [setFile fs0 (tmpPathOf t tn) N]⟩
          e1 hres h1 h3 h4 h5
        have hw : w = (writeCleanup o (tmpPathOf t tn) (backupPathOf t sn) t
            ⟨setFile fs0 (tmpPathOf t tn) N,
              [setFile fs0 (tmpPathOf t tn) N]⟩ e1).1 := by
          rw [hcall] at heq
          exact (congrArg Prod.fst heq).symm
        rw [hw, r2]
        simp [hw1bp, hw1t]
      | none =>
        cases hcm : o.commitRename with
        | some e2 =>
          have hw2bp : renameFs (setFile fs0 (tmpPathOf t tn) N) t
              (backupPathOf t sn) (backupPathOf t sn) = some C := by
            rw [renameFs_dest]; exact hw1t
          have hcall : safeWriteWithBackup o tn sn N t fs0 =
              writeCleanup o (tmpPathOf t tn) (backupPathOf t sn) t
                ⟨renameFs (setFile fs0 (tmpPathOf t tn) N) t
                   (backupPathOf t sn),
                 [setFile fs0 (tmpPathOf t tn) N,
                  renameFs (setFile fs0 (tmpPathOf t tn) N) t
                    (backupPathOf t sn)]⟩ e2 := by
            simp [safeWriteWithBackup, hwt, hv, fsSet, hw1t, hbr,
              commitStep, hcm, fsRen]
          obtain ⟨r1, r2, r3⟩ := writeCleanup_target o (tmpPathOf t tn)
            (backupPathOf t sn) t
            ⟨renameFs (setFile fs0 (tmpPathOf t tn) N) t (backupPathOf t sn),
             [setFile fs0 (tmpPathOf t tn) N,
              renameFs (setFile fs0 (tmpPathOf t tn) N) t
                (backupPathOf t sn)]⟩ e2 hres h1 h3 h4 h5
          have hw : w = (writeCleanup o (tmpPathOf t tn) (backupPathOf t sn)
              t ⟨renameFs (setFile fs0 (tmpPathOf t tn) N) t
                   (backupPathOf t sn),
                 [setFile fs0 (tmpPathOf t tn) N,
                  renameFs (setFile fs0 (tmpPathOf t tn) N) t
                    (backupPathOf t sn)]⟩ e2).1 := by
            rw [hcall] at heq
            exact (congrArg Prod.fst heq).symm
          rw [hw, r2]
          simp [hw2bp]
        | none =>
          have hcall : safeWriteWithBackup o tn sn N t fs0 =
              (fsRen (fsRen (fsSet ⟨fs0, []⟩ (tmpPathOf t tn) N) t
                 (backupPathOf t sn)) (tmpPathOf t tn) t,
               Except.ok ()) := by
            simp [safeWriteWithBackup, hwt, hv, fsSet, hw1t, hbr,
              commitStep, hcm]
          rw [hcall] at heq
          have hcontra := congrArg Prod.snd heq
          simp at hcontra

/-- Claim C6: if any step of an orchestrator run fails — reading the
program's own source, the remote call (including retry exhaustion and
response-shape failures), or the file replacement (integrity or filesystem
failure) — then `main` performs no corrective write (the program file still
holds its previous contents `C`), invokes the Restart Supervisor as a
fallback, and the process exits 0, so in particular it exits with the
non-zero code 1 only when that fallback restart itself raises (which the
fallback, started at attempt 1, never does). -/
theorem main_failure_containment
    (o : MainOracle) (filename : String) (fs0 : FS) (C : String)
    (hC : fs0 filename = some C)
    (hbk : fs0 (backupPathOf filename o.startNow) = none)
    (hres : o.fsO.restoreRename = none)
    (hfail : mainStepFails o filename fs0 = true) :
    (mainRun o filename fs0).fallbackRestart = true ∧
    (mainRun o filename fs0).fs filename = some C ∧
    (mainRun o filename fs0).outcome = ProcOutcome.exited 0 := by
  cases hrd : o.readSelf with
  | error e1 =>
    have hm : mainRun o filename fs0 = mainFallback o fs0 := by
      simp only [mainRun, hrd]
    rw [hm]
    exact ⟨rfl, hC, rfl⟩
  | ok content =>
    cases hwk : work o.transport (upgradePrompt o.promptNow content) with
    | error e2 =>
      have hm : mainRun o filename fs0 = mainFallback o fs0 := by
        simp only [mainRun, hrd, hwk]
      rw [hm]
      exact ⟨rfl, hC, rfl⟩
    | ok newCode =>
      cases hsw : safeWriteWithBackup o.fsO o.tmpNow o.startNow newCode
          filename fs0 with
      | mk w r =>
        cases r with
        | error e3 =>
          have hm : mainRun o filename fs0 = mainFallback o w.fs := by
            simp only [mainRun, hrd, hwk, hsw]
          rw [hm]
          exact ⟨rfl, safeWrite_error_target o.fsO o.tmpNow o.startNow
            newCode filename C fs0 hC hbk hres w e3 hsw, rfl⟩
        | ok u =>
          exfalso
          unfold mainStepFails at hfail
          simp only [hrd, hwk, hsw] at hfail
          exact absurd hfail (by decide)

/-! ## Remote Call Client theorems -/

/-- Against a transport whose every attempt rejects,
`secureFetchWithRetry` started at attempt index `idx` with `n` retries left
performs `n + 1` fetch attempts, sleeps `RETRY_DELAY` between consecutive
attempts (`n` sleeps), and settles with the terminal error whose message
names the constant `MAX_RETRIES` and wraps `errorToString` of the last
attempt's underlying error. -/
lemma secureFetch_allFail (err : Nat → JsError) : ∀ n idx,
    secureFetchWithRetry (fun i => FetchStep.netFail (err i)) idx n =
      ⟨n + 1, List.replicate n RETRY_DELAY,
        Except.error (mkError ("API request failed after " ++
          toString MAX_RETRIES ++ " attempts: " ++
          errorToString (err (idx + n))))⟩ := by
  intro n
  induction n with
  | zero =>
    intro idx
    simp [secureFetchWithRetry, attemptResult]
  | succ k ih =>
    intro idx
    have hx : idx + 1 + k = idx + (k + 1) := by omega
    simp only [secureFetchWithRetry, attemptResult, ih (idx + 1), hx,
      List.replicate_succ]

/-- If the attempt at index `idx` succeeds, `secureFetchWithRetry` returns
its parsed response after exactly one attempt, regardless of the retry
budget. -/
lemma secureFetch_first_success (transport : Nat → FetchStep) (idx : Nat)
    (v : ApiResponse) (h : transport idx = FetchStep.success v) :
    ∀ n, secureFetchWithRetry transport idx n = ⟨1, [], Except.ok v⟩ := by
  intro n
  cases n with
  | zero => simp [secureFetchWithRetry, h, attemptResult]
  | succ k => simp [secureFetchWithRetry, h, attemptResult]

/-- Claim C9: for every `n ≥ 0`, `secureFetchWithRetry` invoked with
`retries = n` against an always-failing transport performs exactly `n + 1`
fetch attempts before raising, and the final error message always reports
the constant `MAX_RETRIES` — rendered `3` — as the attempt count,
regardless of `n`. -/
theorem secureFetchWithRetry_attempts_linear_in_retries
    (err : Nat → JsError) (n : Nat) :
    (secureFetchWithRetry (fun i => FetchStep.netFail (err i)) 0 n).attempts
      = n + 1 ∧
    (secureFetchWithRetry (fun i => FetchStep.netFail (err i)) 0 n).result =
      Except.error (mkError ("API request failed after 3 attempts: " ++
        errorToString (err n))) := by
  have h := secureFetch_allFail err n 0
  rw [Nat.zero_add] at h
  rw [h]
  exact ⟨rfl, rfl⟩

/-- Claim C4, counterexample: with the default retry budget
(`retries = MAX_RETRIES = 3`) and an always-failing transport, the client
performs 4 fetch attempts — not the 3 the claim states — before raising. -/
theorem secureFetch_default_budget_not_three_attempts :
    (secureFetchWithRetry (fun _ => FetchStep.netFail
      (mkError "connection refused")) 0 MAX_RETRIES).attempts = 4 ∧
    ¬ (secureFetchWithRetry (fun _ => FetchStep.netFail
      (mkError "connection refused")) 0 MAX_RETRIES).attempts = 3 := by
  exact ⟨rfl, by decide⟩

/-- Claim C4, amended: when every transport attempt fails,
`secureFetchWithRetry` invoked with its default retry budget raises a
terminal error after exactly 4 fetch attempts (the initial attempt plus
`MAX_RETRIES = 3` retries), sleeping the fixed `RETRY_DELAY` between
consecutive attempts (3 sleeps), and the raised error's message — which
reports `3` attempts, understating the count by one — wraps the last
underlying error's full `errorToString` diagnostic text. -/
theorem secureFetch_default_budget_exhaustion (err : Nat → JsError) :
    (secureFetchWithRetry (fun i => FetchStep.netFail (err i)) 0
      MAX_RETRIES).attempts = 4 ∧
    (secureFetchWithRetry (fun i => FetchStep.netFail (err i)) 0
      MAX_RETRIES).sleeps = [RETRY_DELAY, RETRY_DELAY, RETRY_DELAY] ∧
    (secureFetchWithRetry (fun i => FetchStep.netFail (err i)) 0
      MAX_RETRIES).result =
      Except.error (mkError ("API request failed after 3 attempts: " ++
        errorToString (err 3))) := by
  have h := secureFetch_allFail err MAX_RETRIES 0
  rw [h]
  exact ⟨rfl, rfl, rfl⟩

/-- Claim C7: for every remote response reached on the first attempt,
`work` raises the terminal shape error whenever
`choices[0].message.content` is absent or the empty string, and returns
the content trimmed of surrounding whitespace whenever it is a non-empty
string. -/
theorem work_response_shape (transport : Nat → FetchStep) (dest : String)
    (r : ApiResponse) (h : transport 0 = FetchStep.success r) :
    ((contentOf r = none ∨ contentOf r = some "") →
      work transport dest =
        Except.error (mkError "Invalid API response structure")) ∧
    (∀ s, contentOf r = some s → ¬ s = "" →
      work transport dest = Except.ok (jsTrim s)) := by
  have hrun := secureFetch_first_success transport 0 r h MAX_RETRIES
  constructor
  · intro hc
    rcases hc with hc | hc
    · simp [work, hrun, hc]
    · simp [work, hrun, hc]
  · intro s hs hne
    simp [work, hrun, hs, hne]

/-! ## Restart Supervisor theorem -/

/-- Claim C5 (the code, as written, falsifies it): for every spawn
behaviour — including one whose every attempt reports failure —
`restartProcess` started at attempt 1 spawns once and terminates the
current process with the success exit code 0; the 5-attempt
retry-then-raise ceiling is unreachable because `process.exit(0)` runs
synchronously inside the promise executor before any failure callback. -/
theorem restartProcess_exits_zero_on_first_attempt (o : SpawnOracle) :
    restartProcess o 1 = ⟨1, ProcOutcome.exited 0⟩ := rfl

/-! ## Integrity Validator theorems -/

/-- Claim C3: `validateCodeIntegrity` returns `true` exactly when every one
of its 8 required marker patterns matches somewhere in the candidate text;
if any single marker has no match it returns `false`. -/
theorem validateCodeIntegrity_iff_all_markers (code : String) :
    validateCodeIntegrity code = true ↔
      (reTest reFsImport code = true ∧
       reTest reChildProcessImport code = true ∧
       reTest reWorkThen code = true ∧
       reTest reApiKey code = true ∧
       reTest reValidateName code = true ∧
       reTest reSafeWriteName code = true ∧
       reTest reSecureFetchName code = true ∧
       reTest reMainCall code = true) := by
  simp [validateCodeIntegrity, requiredPatterns, List.all_cons,
    List.all_nil, Bool.and_eq_true, and_assoc]


/-! ## The program's own text fails its own validator

A match of a pattern whose every item rejects the newline character can
never contain a newline, so scanning a multi-line text reduces to scanning
its lines one at a time.  This keeps each kernel evaluation small. -/

/-- If the empty suffix matches, the scan succeeds on any text (the empty
suffix is the scan's last start position). -/
lemma reTestFrom_of_nil (f : Nat) (r : Regex)
    (h : matchFuel f r [] = true) : ∀ s, reTestFrom f r s = true := by
  intro s
  induction s with
  | nil => exact h
  | cons x xs ih =>
    show (match matchFuel f r (x :: xs) with
          | true => true
          | false => reTestFrom f r xs) = true
    cases matchFuel f r (x :: xs)
    · simpa using ih
    · rfl

/-- A pattern whose items all reject the newline can never consume one:
matching against `w ++ char 10 :: v` is matching against `w`. -/
lemma matchFuel_barrier : ∀ (f : Nat) (r : Regex), rejectsNl r = true →
    ∀ w v, matchFuel f r (w ++ Char.ofNat 10 :: v) = matchFuel f r w := by
  intro f
  induction f with
  | zero =>
    intro r hr w v
    cases r with
    | nil => rfl
    | cons i ps => rfl
  | succ f ih =>
    intro r hr w v
    cases r with
    | nil => rfl
    | cons i ps =>
      have hi : itemRejectsNl i = true := by
        simp only [rejectsNl, List.all_cons, Bool.and_eq_true] at hr
        exact hr.1
      have hps : rejectsNl ps = true := by
        simp only [rejectsNl, List.all_cons, Bool.and_eq_true] at hr
        exact hr.2
      cases i with
      | lit c =>
        have hc : (c == Char.ofNat 10) = false := by
          simpa [itemRejectsNl] using hi
        cases w with
        | nil => simp [matchFuel, hc]
        | cons y w' => simp [matchFuel, ih ps hps w' v]
      | cls p =>
        have hp : p (Char.ofNat 10) = false := by
          simpa [itemRejectsNl] using hi
        cases w with
        | nil => simp [matchFuel, hp]
        | cons y w' => simp [matchFuel, ih ps hps w' v]
      | star p =>
        have hp : p (Char.ofNat 10) = false := by
          simpa [itemRejectsNl] using hi
        cases w with
        | nil =>
          simp only [List.nil_append, matchFuel, hp, Bool.false_and,
            Bool.or_false]
          exact ih ps hps [] v
        | cons y w' =>
          have h1 : matchFuel f ps (y :: (w' ++ Char.ofNat 10 :: v)) =
              matchFuel f ps (y :: w') := ih ps hps (y :: w') v
          have h2 : matchFuel f (RItem.star p :: ps)
              (w' ++ Char.ofNat 10 :: v) =
              matchFuel f (RItem.star p :: ps) w' :=
            ih (RItem.star p :: ps) hr w' v
          simp only [List.cons_append, matchFuel]
          rw [h1, h2]

/-- Scanning a text with a newline in it splits into scanning the part
before the newline and the part after it, for a pattern that rejects the
newline. -/
lemma reTestFrom_split (f : Nat) (r : Regex) (hr : rejectsNl r = true) :
    ∀ w v, reTestFrom f r (w ++ Char.ofNat 10 :: v) =
      (reTestFrom f r w || reTestFrom f r v) := by
  intro w
  induction w with
  | nil =>
    intro v
    show (match matchFuel f r (Char.ofNat 10 :: v) with
          | true => true
          | false => reTestFrom f r v) = _
    rw [show matchFuel f r (Char.ofNat 10 :: v) = matchFuel f r [] from
      matchFuel_barrier f r hr [] v]
    cases hm : matchFuel f r [] <;> simp [reTestFrom, hm]
  | cons y w' ih =>
    intro v
    show (match matchFuel f r (y :: (w' ++ Char.ofNat 10 :: v)) with
          | true => true
          | false => reTestFrom f r (w' ++ Char.ofNat 10 :: v)) = _
    rw [show matchFuel f r (y :: (w' ++ Char.ofNat 10 :: v)) =
        matchFuel f r (y :: w') from matchFuel_barrier f r hr (y :: w') v]
    rw [ih v]
    cases hm : matchFuel f r (y :: w') <;> simp [reTestFrom, hm]

/-- Scanning the newline-join of a list of lines is scanning each line
separately (plus the empty-suffix match, which the line scans also end
with). -/
lemma reTestFrom_joinNl (f : Nat) (r : Regex) (hr : rejectsNl r = true) :
    ∀ ls, reTestFrom f r (joinNlData ls) =
      (ls.any (fun l => reTestFrom f r l.data) || matchFuel f r []) := by
  intro ls
  induction ls with
  | nil => simp [joinNlData, reTestFrom]
  | cons l ls ih =>
    cases ls with
    | nil =>
      show reTestFrom f r l.data = _
      cases hm : matchFuel f r [] with
      | false => simp [List.any_cons]
      | true => simp [List.any_cons, reTestFrom_of_nil f r hm l.data]
    | cons l2 ls2 =>
      rw [show joinNlData (l :: l2 :: ls2) =
          l.data ++ Char.ofNat 10 :: joinNlData (l2 :: ls2) from rfl]
      rw [reTestFrom_split f r hr l.data (joinNlData (l2 :: ls2)), ih]
      simp [List.any_cons, Bool.or_assoc]

set_option maxRecDepth 200000 in
set_option maxHeartbeats 8000000 in
/-- Claim C8: the program's own current source text does not pass
`validateCodeIntegrity`: the marker `/work\(.*\)\.then/` matches nowhere in
it — the source invokes `await work(upgradePrompt)` with no `.then`
continuation — so a candidate reproducing the current program verbatim
would be rejected by the integrity validator. -/
theorem selfSource_fails_integrity :
    reTest reWorkThen selfSource = false ∧
    validateCodeIntegrity selfSource = false := by
  have hr : rejectsNl reWorkThen = true := by decide
  have hf : clen8 (joinNlData selfLines) (List.length reWorkThen) = 5507 :=
    by decide
  have h3 : reTest reWorkThen selfSource = false := by
    show reTestFrom
      (clen selfSource.data (List.length reWorkThen) + 1) reWorkThen
      selfSource.data = false
    rw [show selfSource.data = joinNlData selfLines from rfl]
    rw [← clen8_eq_clen (List.length (joinNlData selfLines))
      (joinNlData selfLines) (Nat.le_refl _) (List.length reWorkThen)]
    rw [hf]
    rw [reTestFrom_joinNl (5507 + 1) reWorkThen hr selfLines]
    decide
  refine ⟨h3, ?_⟩
  unfold validateCodeIntegrity requiredPatterns
  simp only [List.all_cons, List.all_nil, h3, Bool.false_and,
    Bool.and_false]

/-! ## Witnesses -/

/-- Witness for claim C1 at a concrete input: integrity validation rejects
`"bad"`, and the target file keeps its old contents. -/
theorem safeWriteWithBackup_rollback_witness :
    fsOld "app.ts" = some "OLD" ∧
    fsOld (backupPathOf "app.ts" 9) = none ∧
    validateCodeIntegrity "bad" = false ∧
    ((safeWriteWithBackup noFailFs 7 9 "bad" "app.ts" fsOld).1.fs "app.ts"
      = some "OLD" ∧
     (∀ g ∈ (safeWriteWithBackup noFailFs 7 9 "bad" "app.ts"
        fsOld).1.hist, g "app.ts" = some "OLD" ∨ g "app.ts" = none) ∧
     ((validateCodeIntegrity "bad" = false ∧
        (safeWriteWithBackup noFailFs 7 9 "bad" "app.ts" fsOld).2 =
          Except.error
            (mkError "Generated code failed integrity validation")) ∨
      (∃ e, noFailFs.backupRename = some e ∧
        (safeWriteWithBackup noFailFs 7 9 "bad" "app.ts" fsOld).2 =
          Except.error e) ∨
      (∃ e, noFailFs.commitRename = some e ∧
        (safeWriteWithBackup noFailFs 7 9 "bad" "app.ts" fsOld).2 =
          Except.error e))) :=
  ⟨by decide, by decide, by decide,
   safeWriteWithBackup_rollback_on_failure noFailFs 7 9 "bad" "app.ts"
     "OLD" fsOld (by decide) (by decide) rfl rfl (Or.inl (by decide))⟩

set_option maxRecDepth 20000 in
/-- Witness for claim C2 at a concrete input: valid content replaces the
target and the old contents land in the backup file. -/
theorem safeWriteWithBackup_success_witness :
    fsOld "app.ts" = some "OLD" ∧
    validateCodeIntegrity validMarkersText = true ∧
    ((safeWriteWithBackup noFailFs 7 9 validMarkersText "app.ts" fsOld).2 =
      Except.ok () ∧
     (safeWriteWithBackup noFailFs 7 9 validMarkersText "app.ts"
       fsOld).1.fs "app.ts" = some validMarkersText ∧
     (safeWriteWithBackup noFailFs 7 9 validMarkersText "app.ts"
       fsOld).1.fs (backupPathOf "app.ts" 9) = some "OLD") :=
  ⟨by decide, by decide,
   safeWriteWithBackup_success_replaces_and_backs_up noFailFs 7 9
     validMarkersText "app.ts" "OLD" fsOld (by decide) (by decide)
     rfl rfl rfl⟩

set_option maxRecDepth 20000 in
/-- Witness for claim C10 at a concrete input: no pre-existing target, so
no backup file is created. -/
theorem safeWriteWithBackup_absent_target_witness :
    emptyFs "app.ts" = none ∧
    ((validateCodeIntegrity validMarkersText = true →
      (safeWriteWithBackup noFailFs 7 9 validMarkersText "app.ts"
        emptyFs).2 = Except.ok () ∧
      (safeWriteWithBackup noFailFs 7 9 validMarkersText "app.ts"
        emptyFs).1.fs "app.ts" = some validMarkersText ∧
      (safeWriteWithBackup noFailFs 7 9 validMarkersText "app.ts"
        emptyFs).1.fs (backupPathOf "app.ts" 9) = none) ∧
     (validateCodeIntegrity validMarkersText = false →
      (safeWriteWithBackup noFailFs 7 9 validMarkersText "app.ts"
        emptyFs).2 = Except.error
          (mkError "Generated code failed integrity validation") ∧
      (safeWriteWithBackup noFailFs 7 9 validMarkersText "app.ts"
        emptyFs).1.fs "app.ts" = none ∧
      (safeWriteWithBackup noFailFs 7 9 validMarkersText "app.ts"
        emptyFs).1.fs (backupPathOf "app.ts" 9) = none)) :=
  ⟨rfl, safeWriteWithBackup_absent_target noFailFs 7 9 validMarkersText
    "app.ts" emptyFs rfl rfl rfl rfl⟩

/-- Witness for claim C6 at a concrete input: the remote call exhausts its
retries, `main` preserves the program file, invokes the fallback restart
and the process exits 0. -/
theorem main_failure_containment_witness :
    fsOld "app.ts" = some "OLD" ∧
    mainStepFails failingTransportOracle "app.ts" fsOld = true ∧
    ((mainRun failingTransportOracle "app.ts" fsOld).fallbackRestart = true ∧
     (mainRun failingTransportOracle "app.ts" fsOld).fs "app.ts" =
       some "OLD" ∧
     (mainRun failingTransportOracle "app.ts" fsOld).outcome =
       ProcOutcome.exited 0) :=
  ⟨by decide, by decide,
   main_failure_containment failingTransportOracle "app.ts" fsOld "OLD"
     (by decide) (by decide) rfl (by decide)⟩

/-- Witness for claim C7 at a concrete input: a well-shaped response's
content is returned trimmed. -/
theorem work_response_shape_witness :
    (fun _ : Nat => FetchStep.success rOk) 0 = FetchStep.success rOk ∧
    contentOf rOk = some "  hello  " ∧
    work (fun _ => FetchStep.success rOk) "dest" = Except.ok "hello" :=
  ⟨rfl, rfl, by
    have h := (work_response_shape (fun _ => FetchStep.success rOk) "dest"
      rOk rfl).2 "  hello  " rfl (by decide)
    have ht : jsTrim "  hello  " = "hello" := by decide
    rw [h, ht]⟩
